import Mathlib

/-!
Verification of the jupyter-ai-acp-client ACP session runtime.

This file embeds (shallowly) the state and operations of:
  * `tool_call_renderer.py` — tool-call records, title generation, serialization;
  * `tool_call_manager.py`  — per-session tool-call state and event handling;
  * `permission_manager.py` — pending permission requests and auto-rejection;
  * `terminal_manager.py`   — terminal creation validation, output buffering,
    exit-status encoding;
  * `default_acp_client.py` — prompt block construction and the
    `request_permission` callback.

Python `dict`s (insertion-ordered, unique keys) are modelled as association
lists; `None`-able values as `Option`; byte strings as `List Nat` (each < 256);
mutation as functional state update.  External collaborators (ychat message
store, asyncio event loop, OS processes) are outside the embedding: calls to
them are modelled as data in returned traces or as oracle parameters.
-/

/-! ## Python-style string utilities (structural, kernel-reducible) -/

/-- Split a character list at every character satisfying `p`
(keeping empty segments, like Python's `str.split(sep)`). -/
def splitPred (p : Char → Bool) : List Char → List (List Char)
  | [] => [[]]
  | c :: cs =>
    let r := splitPred p cs
    if p c then [] :: r
    else
      match r with
      | seg :: segs => (c :: seg) :: segs
      | [] => [[c]]

/-- Python `str.split()` with no argument: split on whitespace runs,
discarding empty tokens. -/
def pySplitWS (s : String) : List String :=
  ((splitPred (fun c => c.isWhitespace) s.toList).filter (fun seg => seg ≠ [])).map
    (fun seg => String.mk seg)

/-- Does `l` start with `pat`? -/
def startsWithL : List Char → List Char → Bool
  | [], _ => true
  | _ :: _, [] => false
  | p :: ps, c :: cs => p = c && startsWithL ps cs

/-- Does `l` contain `pat` as a contiguous substring? -/
def containsL (pat : List Char) : List Char → Bool
  | [] => startsWithL pat []
  | c :: cs => startsWithL pat (c :: cs) || containsL pat cs

/-- Python `pat in s` (substring containment, for nonempty `pat`). -/
def strContains (s pat : String) : Bool :=
  containsL pat.toList s.toList

/-- Python `s.upper()` (ASCII case mapping; the deny-list names are ASCII). -/
def pyUpper (s : String) : String :=
  String.mk (s.toList.map Char.toUpper)

/-- The substring of `path` after its last `'/'`, i.e. Python
`path.rsplit("/", 1)[-1]`; the whole string when it has no `'/'`. -/
def lastComponent (s : String) : String :=
  match (splitPred (fun c => c = '/') s.toList).getLast? with
  | some seg => String.mk seg
  | none => s

/-- Truthiness of an optional string in Python (`None` and `""` are falsy). -/
def optStrTruthy : Option String → Bool
  | some s => s ≠ ""
  | none => false

/-- Truthiness of an optional list in Python (`None` and `[]` are falsy). -/
def optListTruthy {α : Type} : Option (List α) → Bool
  | some l => !l.isEmpty
  | none => false

/-! ## Association-list model of Python dicts -/

/-- `d.get(k)` on an insertion-ordered dict. -/
def dictGet {κ α : Type} [DecidableEq κ] : List (κ × α) → κ → Option α
  | [], _ => none
  | e :: rest, k => if e.1 = k then some e.2 else dictGet rest k

/-- `d[k] = v`: replace in place when the key exists, append otherwise. -/
def dictSet {κ α : Type} [DecidableEq κ] : List (κ × α) → κ → α → List (κ × α)
  | [], k, v => [(k, v)]
  | e :: rest, k, v =>
    if e.1 = k then (k, v) :: rest else e :: dictSet rest k v

/-- `del d[k]` / `d.pop(k, None)` state part: remove the key. -/
def dictRemove {κ α : Type} [DecidableEq κ] : List (κ × α) → κ → List (κ × α)
  | [], _ => []
  | e :: rest, k =>
    if e.1 = k then dictRemove rest k else e :: dictRemove rest k

theorem dictGet_dictSet_self {κ α : Type} [DecidableEq κ]
    (m : List (κ × α)) (k : κ) (v : α) :
    dictGet (dictSet m k v) k = some v := by
  induction m with
  | nil => simp [dictGet, dictSet]
  | cons e rest ih =>
    by_cases h : e.1 = k <;> simp [dictGet, dictSet, h, ih]

theorem dictGet_dictSet_ne {κ α : Type} [DecidableEq κ]
    (m : List (κ × α)) (k k' : κ) (v : α) (h : k' ≠ k) :
    dictGet (dictSet m k v) k' = dictGet m k' := by
  have h' : ¬ k = k' := fun hk => h hk.symm
  induction m with
  | nil => simp [dictGet, dictSet, h']
  | cons e rest ih =>
    by_cases he : e.1 = k
    · have hek : ¬ e.1 = k' := he ▸ h'
      simp [dictGet, dictSet, he, h', hek]
    · by_cases he' : e.1 = k' <;> simp [dictGet, dictSet, he, he', h, h', ih]

theorem dictGet_dictRemove_self {κ α : Type} [DecidableEq κ]
    (m : List (κ × α)) (k : κ) :
    dictGet (dictRemove m k) k = none := by
  induction m with
  | nil => simp [dictGet, dictRemove]
  | cons e rest ih =>
    by_cases h : e.1 = k <;> simp [dictGet, dictRemove, h, ih]

theorem dictGet_dictRemove_ne {κ α : Type} [DecidableEq κ]
    (m : List (κ × α)) (k k' : κ) (h : k' ≠ k) :
    dictGet (dictRemove m k) k' = dictGet m k' := by
  have h' : ¬ k = k' := fun hk => h hk.symm
  induction m with
  | nil => simp [dictRemove]
  | cons e rest ih =>
    by_cases he : e.1 = k
    · have hek : ¬ e.1 = k' := he ▸ h'
      simp [dictGet, dictRemove, he, hek, h', ih]
    · by_cases he' : e.1 = k' <;> simp [dictGet, dictRemove, he, he', h, h', ih]

/-! ## JSON-compatible Python values (for `raw_output` and serialization) -/

/-- A Python value as it occurs in this development (`raw_output` is
`Optional[Any]`; serialized `locations` are lists of strings).  `pystrlist`
covers the list values occurring here; `pyother` stands for a value that is
not a plain scalar/collection, carried with its `str()` representation. -/
inductive PyObj : Type where
  | pystr (s : String)
  | pyint (n : Int)
  | pybool (b : Bool)
  | pystrlist (xs : List String)
  | pyother (s : String)
deriving DecidableEq

/-! ## `tool_call_renderer.py` -/

/-- A permission option as converted in `request_permission`
(`{"option_id": ..., "title": ..., "description": ...}`). -/
structure PermissionOption where
  option_id : String
  title : String
  description : String
deriving DecidableEq

/-- A diff extracted from a tool-call payload (used by `request_permission`). -/
structure Diff where
  path : String
  content : String
deriving DecidableEq

/-- `ToolCallState` from `tool_call_renderer.py`.  The first six fields are the
declared dataclass fields (the ones `dataclasses.asdict` reflects).  The
remaining fields model attributes assigned dynamically by
`request_permission` in `default_acp_client.py`; Python stores them on the
instance but they are *not* dataclass fields. -/
structure ToolCallState where
  tool_call_id : String
  title : String
  kind : Option String := none
  status : Option String := none
  raw_output : Option PyObj := none
  locations : Option (List String) := none
  -- dynamically-assigned attributes (not in `__dataclass_fields__`):
  permission_options : Option (List PermissionOption) := none
  permission_status : Option String := none
  selected_option_id : Option String := none
  diffs : Option (List Diff) := none
  session_id : Option String := none
deriving DecidableEq

/-- The `tool_calls` dict of a session. -/
def ToolCallDict : Type := List (String × ToolCallState)

/-- The `kind_verbs` table in `_generate_title`. -/
def kind_verbs : List (String × String) :=
  [("read", "Reading"), ("edit", "Editing"), ("delete", "Deleting"),
   ("move", "Moving"), ("search", "Searching"), ("execute", "Running command"),
   ("think", "Thinking"), ("fetch", "Fetching"), ("switch_mode", "Switching mode")]

/-- `_generate_title` from `tool_call_renderer.py`. -/
def generate_title (kind : Option String) (locations : Option (List String)) :
    String :=
  let verb :=
    match dictGet kind_verbs (kind.getD "") with
    | some v => v
    | none => "Working"
  match locations with
  | some (path :: _) =>
      let filename := if strContains path "/" then lastComponent path else path
      verb ++ " " ++ filename
  | _ => verb ++ "..."

/-- `_shorten_title` from `tool_call_renderer.py`: replace each
whitespace-separated word that starts with `/` and has another `/` after its
first character by its final path component. -/
def shorten_title (title : String) : String :=
  String.intercalate " "
    ((pySplitWS title).map (fun word =>
      if startsWithL ['/'] word.toList && containsL ['/'] (word.toList.drop 1) then
        lastComponent word
      else word))

/-- `update_tool_call_from_start` from `tool_call_renderer.py`. -/
def update_tool_call_from_start (tool_calls : ToolCallDict)
    (tool_call_id : String) (title : String) (kind : Option String := none)
    (locations : Option (List String) := none) : ToolCallDict :=
  let resolved :=
    if title = "" ∧ (optStrTruthy kind ∨ optListTruthy locations) then
      generate_title kind locations
    else if title = "" then "Working..."
    else shorten_title title
  dictSet tool_calls tool_call_id
    { tool_call_id := tool_call_id, title := resolved, kind := kind,
      status := some "in_progress", locations := locations }

/-- The field-by-field update that `update_tool_call_from_progress` performs
on an existing record (`if title is not None: tc.title = ...`, etc.). -/
def progressMerge (tc : ToolCallState) (title kind status : Option String)
    (raw_output : Option PyObj) (locations : Option (List String)) :
    ToolCallState :=
  let tc := match title with | some t => { tc with title := shorten_title t } | none => tc
  let tc := match kind with | some k => { tc with kind := some k } | none => tc
  let tc := match status with | some s => { tc with status := some s } | none => tc
  let tc := match raw_output with | some r => { tc with raw_output := some r } | none => tc
  let tc := match locations with | some l => { tc with locations := some l } | none => tc
  tc

theorem progressMerge_title (tc : ToolCallState) (t k s : Option String)
    (r : Option PyObj) (l : Option (List String)) :
    (progressMerge tc t k s r l).title =
      match t with | some t' => shorten_title t' | none => tc.title := by
  unfold progressMerge
  cases t <;> cases k <;> cases s <;> cases r <;> cases l <;> rfl

theorem progressMerge_kind (tc : ToolCallState) (t k s : Option String)
    (r : Option PyObj) (l : Option (List String)) :
    (progressMerge tc t k s r l).kind =
      match k with | some k' => some k' | none => tc.kind := by
  unfold progressMerge
  cases t <;> cases k <;> cases s <;> cases r <;> cases l <;> rfl

theorem progressMerge_status (tc : ToolCallState) (t k s : Option String)
    (r : Option PyObj) (l : Option (List String)) :
    (progressMerge tc t k s r l).status =
      match s with | some s' => some s' | none => tc.status := by
  unfold progressMerge
  cases t <;> cases k <;> cases s <;> cases r <;> cases l <;> rfl

theorem progressMerge_raw_output (tc : ToolCallState) (t k s : Option String)
    (r : Option PyObj) (l : Option (List String)) :
    (progressMerge tc t k s r l).raw_output =
      match r with | some r' => some r' | none => tc.raw_output := by
  unfold progressMerge
  cases t <;> cases k <;> cases s <;> cases r <;> cases l <;> rfl

theorem progressMerge_locations (tc : ToolCallState) (t k s : Option String)
    (r : Option PyObj) (l : Option (List String)) :
    (progressMerge tc t k s r l).locations =
      match l with | some l' => some l' | none => tc.locations := by
  unfold progressMerge
  cases t <;> cases k <;> cases s <;> cases r <;> cases l <;> rfl

theorem progressMerge_permission_status (tc : ToolCallState)
    (t k s : Option String) (r : Option PyObj) (l : Option (List String)) :
    (progressMerge tc t k s r l).permission_status = tc.permission_status := by
  unfold progressMerge
  cases t <;> cases k <;> cases s <;> cases r <;> cases l <;> rfl

theorem progressMerge_status_only (tc : ToolCallState) (s : Option String) :
    progressMerge tc none none s none none =
      { tc with status := s.elim tc.status some } := by
  unfold progressMerge
  cases s <;> rfl

/-- `update_tool_call_from_progress` from `tool_call_renderer.py`. -/
def update_tool_call_from_progress (tool_calls : ToolCallDict)
    (tool_call_id : String) (title : Option String := none)
    (kind : Option String := none) (status : Option String := none)
    (raw_output : Option PyObj := none)
    (locations : Option (List String) := none) : ToolCallDict :=
  match dictGet tool_calls tool_call_id with
  | none =>
    let shortened := if optStrTruthy title then shorten_title (title.getD "") else ""
    let resolved :=
      if shortened = "" ∧ (optStrTruthy kind ∨ optListTruthy locations) then
        generate_title kind locations
      else if shortened = "" then "Working..."
      else shortened
    let statusVal := if optStrTruthy status then status.getD "" else "in_progress"
    dictSet tool_calls tool_call_id
      { tool_call_id := tool_call_id, title := resolved, kind := kind,
        status := some statusVal, raw_output := raw_output,
        locations := locations }
  | some tc =>
    dictSet tool_calls tool_call_id
      (progressMerge tc title kind status raw_output locations)

/-- The declared dataclass fields of `ToolCallState`, as reflected by
`dataclasses.asdict` (dynamically-assigned attributes are not among them). -/
def asdictToolCall (tc : ToolCallState) : List (String × Option PyObj) :=
  [("tool_call_id", some (PyObj.pystr tc.tool_call_id)),
   ("title", some (PyObj.pystr tc.title)),
   ("kind", tc.kind.map PyObj.pystr),
   ("status", tc.status.map PyObj.pystr),
   ("raw_output", tc.raw_output),
   ("locations", tc.locations.map (fun ls => PyObj.pystrlist ls))]

/-- One record's serialized dict: `asdict(tc)` with `None` values removed
(the loop body of `serialize_tool_calls`). -/
def serialize_tool_call_entry (tc : ToolCallState) : List (String × PyObj) :=
  (asdictToolCall tc).filterMap (fun kv => kv.2.map (fun v => (kv.1, v)))

/-- `serialize_tool_calls` from `tool_call_renderer.py`: `asdict` each record,
dropping `None`-valued entries, in dict insertion order. -/
def serialize_tool_calls (tool_calls : ToolCallDict) :
    List (List (String × PyObj)) :=
  tool_calls.map (fun e => serialize_tool_call_entry e.2)

example :
    shorten_title "Read /Users/a/b/justfile" = "Read justfile" := by decide

example :
    generate_title (some "read") (some ["/x/y/justfile"]) = "Reading justfile" := by
  decide

/-! ## `tool_call_manager.py` -/

/-- A `ToolCallLocation` in an ACP event. -/
structure Location where
  path : String
deriving DecidableEq

/-- The fields of an ACP `ToolCallStart` event used by `handle_start`. -/
structure ToolCallStartEv where
  tool_call_id : String
  title : String
  kind : Option String := none
  locations : Option (List Location) := none
deriving DecidableEq

/-- The fields of an ACP `ToolCallProgress` event used by `handle_progress`. -/
structure ToolCallProgressEv where
  tool_call_id : String
  title : Option String := none
  kind : Option String := none
  status : Option String := none
  raw_output : Option PyObj := none
  locations : Option (List Location) := none
deriving DecidableEq

/-- `update.kind if update.kind else None` (and likewise for `status`):
normalize a falsy (`None` or empty) string to `None`. -/
def normStrField (s : Option String) : Option String :=
  if optStrTruthy s then s else none

/-- `[loc.path for loc in update.locations] if update.locations else None`. -/
def normLocations (locs : Option (List Location)) : Option (List String) :=
  if optListTruthy locs then (locs.getD []).map Location.path |> some else none

/-- The `raw_output` conversion in `handle_progress`: values that are not
plain scalars/collections are replaced by their `str()` representation. -/
def normalizeRawOutput : Option PyObj → Option PyObj
  | some (PyObj.pyother s) => some (PyObj.pystr s)
  | v => v

/-- The state transition performed by `ToolCallManager.handle_start` on the
session's `tool_calls` dict (message creation/flush touch only the external
message store). -/
def handle_start_update (tool_calls : ToolCallDict) (update : ToolCallStartEv) :
    ToolCallDict :=
  update_tool_call_from_start tool_calls update.tool_call_id update.title
    (normStrField update.kind) (normLocations update.locations)

/-- The state transition performed by `ToolCallManager.handle_progress` on the
session's `tool_calls` dict. -/
def handle_progress_update (tool_calls : ToolCallDict)
    (update : ToolCallProgressEv) : ToolCallDict :=
  update_tool_call_from_progress tool_calls update.tool_call_id update.title
    (normStrField update.kind) (normStrField update.status)
    (normalizeRawOutput update.raw_output) (normLocations update.locations)

/-- The events of one turn that touch a session's tool-call records:
start/progress events routed by `session_update`, and the record mutation
performed by `request_permission` when the agent asks for permission
(which sets `permission_options`/`permission_status := "pending"` on an
existing record, and raises — leaving the dict unchanged — when the record
is absent). -/
inductive SessionEvent : Type where
  | start (e : ToolCallStartEv)
  | progress (e : ToolCallProgressEv)
  | permissionPending (tool_call_id : String) (options : List PermissionOption)
deriving DecidableEq

/-- Apply one turn event to the tool-call dict. -/
def applyEvent (tool_calls : ToolCallDict) : SessionEvent → ToolCallDict
  | SessionEvent.start e => handle_start_update tool_calls e
  | SessionEvent.progress e => handle_progress_update tool_calls e
  | SessionEvent.permissionPending tcid opts =>
    match dictGet tool_calls tcid with
    | some tc =>
      dictSet tool_calls tcid
        { tc with permission_options := some opts,
                  permission_status := some "pending" }
    | none => tool_calls

/-- Apply a sequence of turn events. -/
def applyEvents (tool_calls : ToolCallDict) (evs : List SessionEvent) :
    ToolCallDict :=
  evs.foldl applyEvent tool_calls

/-- The `status` of the record at `tcid` (`none` when absent). -/
def statusAt (tool_calls : ToolCallDict) (tcid : String) : Option String :=
  (dictGet tool_calls tcid).bind ToolCallState.status

/-- The `permission_status` of the record at `tcid` (`none` when absent). -/
def permStatusAt (tool_calls : ToolCallDict) (tcid : String) : Option String :=
  (dictGet tool_calls tcid).bind ToolCallState.permission_status

/-! ## Claim-side restatement of the title-resolution policy (spec §4.2) -/

/-- The claim's verb table: the fixed verb for a kind, default `"Working"`. -/
def claimVerb (kind : Option String) : String :=
  match dictGet kind_verbs (kind.getD "") with
  | some v => v
  | none => "Working"

/-- The claim's token rule: a whitespace-separated token that starts with a
path separator and contains another separator after its first character is
replaced by its final path component. -/
def claimShortenWord (word : String) : String :=
  if startsWithL ['/'] word.toList && containsL ['/'] (word.toList.drop 1) then
    lastComponent word
  else word

/-- Title resolution as the claim states it: a non-empty agent title has each
absolute-path-looking token replaced by its final path component; an empty
title is synthesized from the kind's verb followed by the final path component
of the first location if one exists, else an ellipsis suffix. -/
def titleResolutionSpec (title : String) (kind : Option String)
    (locations : Option (List String)) : String :=
  if title ≠ "" then
    String.intercalate " " ((pySplitWS title).map claimShortenWord)
  else
    match locations with
    | some (p :: _) => claimVerb kind ++ " " ++ lastComponent p
    | _ => claimVerb kind ++ "..."

/-! ## Helper lemmas about the string utilities -/

theorem containsL_single (a : Char) (l : List Char) :
    containsL [a] l = l.any (fun c => a = c) := by
  induction l with
  | nil => rfl
  | cons c cs ih => simp [containsL, startsWithL, ih]

theorem splitPred_eq_single {p : Char → Bool} {l : List Char}
    (h : ∀ c ∈ l, p c = false) : splitPred p l = [l] := by
  induction l with
  | nil => rfl
  | cons c cs ih =>
    have hc : p c = false := h c (List.mem_cons_self c cs)
    have ih' := ih (fun d hd => h d (List.mem_cons_of_mem c hd))
    simp [splitPred, hc, ih']

theorem lastComponent_of_no_slash {s : String} (h : strContains s "/" = false) :
    lastComponent s = s := by
  have hc : containsL ['/'] s.toList = false := h
  rw [containsL_single] at hc
  have hall : ∀ c ∈ s.toList, (fun c => decide (c = '/')) c = false := by
    intro c hcmem
    have := List.any_eq_false.mp hc c hcmem
    simpa [eq_comm] using this
  unfold lastComponent
  rw [splitPred_eq_single hall]
  rfl

/-- `_generate_title` computes the claim's verb-plus-final-component rule. -/
theorem generate_title_eq (kind : Option String)
    (locations : Option (List String)) :
    generate_title kind locations =
      match locations with
      | some (p :: _) => claimVerb kind ++ " " ++ lastComponent p
      | _ => claimVerb kind ++ "..." := by
  unfold generate_title claimVerb
  cases locations with
  | none => rfl
  | some l =>
    cases l with
    | nil => rfl
    | cons p rest =>
      by_cases h : strContains p "/" = true
      · simp [h]
      · have h' : strContains p "/" = false := by
          simpa using h
        simp [h', lastComponent_of_no_slash h']

theorem optStrTruthy_false {o : Option String} (h : optStrTruthy o = false) :
    o.getD "" = "" := by
  cases o with
  | none => rfl
  | some s => simpa [optStrTruthy] using h

theorem optListTruthy_false {α : Type} {o : Option (List α)}
    (h : optListTruthy o = false) : o = none ∨ o = some [] := by
  cases o with
  | none => exact Or.inl rfl
  | some l =>
    cases l with
    | nil => exact Or.inr rfl
    | cons a as => simp [optListTruthy] at h

theorem claimVerb_of_falsy {kind : Option String}
    (h : optStrTruthy kind = false) : claimVerb kind = "Working" := by
  unfold claimVerb
  rw [optStrTruthy_false h]
  rfl

/-- The title stored by `update_tool_call_from_start` equals the claim's
title-resolution policy. -/
theorem start_title_eq_spec (title : String) (kind : Option String)
    (locations : Option (List String)) :
    (if title = "" ∧ (optStrTruthy kind ∨ optListTruthy locations) then
      generate_title kind locations
    else if title = "" then "Working..."
    else shorten_title title) = titleResolutionSpec title kind locations := by
  by_cases ht : title = ""
  · subst ht
    by_cases hk : optStrTruthy kind
    · simp [titleResolutionSpec, generate_title_eq, hk]
    · by_cases hl : optListTruthy locations
      · simp [titleResolutionSpec, generate_title_eq, hk, hl]
      · have hk' : optStrTruthy kind = false := by simpa using hk
        have hl' : optListTruthy locations = false := by simpa using hl
        rcases optListTruthy_false hl' with h | h <;>
          · subst h
            simp [titleResolutionSpec, claimVerb_of_falsy hk', hk', optListTruthy]
  · have hcond : ¬ (title = "" ∧ (optStrTruthy kind ∨ optListTruthy locations)) :=
      fun hand => ht hand.1
    rw [if_neg hcond, if_neg ht]
    simp only [titleResolutionSpec, ne_eq, ht, not_false_eq_true, if_true]
    rfl

/-- C9: Title resolution on tool-call start: a non-empty agent-supplied title
has every whitespace-separated token that starts with a path separator and
contains another separator after its first character replaced by its final
path component (so "Read /Users/a/b/justfile" becomes "Read justfile"); an
empty title is synthesized as the fixed verb for the kind followed by the
final path component of the first location if one exists, else an ellipsis
suffix — in particular applyStart(id, title="", kind="read",
locations=["/x/y/justfile"]) yields title "Reading justfile". -/
theorem tool_call_start_title_resolution :
    (∀ (m : ToolCallDict) (id title : String) (kind : Option String)
        (locations : Option (List String)),
      (dictGet (update_tool_call_from_start m id title kind locations) id).map
          ToolCallState.title =
        some (titleResolutionSpec title kind locations)) ∧
    shorten_title "Read /Users/a/b/justfile" = "Read justfile" ∧
    (dictGet (handle_start_update ([] : ToolCallDict)
        { tool_call_id := "tc1", title := "", kind := some "read",
          locations := some [{ path := "/x/y/justfile" }] }) "tc1").map
        ToolCallState.title = some "Reading justfile" := by
  refine ⟨?_, by decide, by decide⟩
  intro m id title kind locations
  unfold update_tool_call_from_start
  rw [dictGet_dictSet_self]
  simp [start_title_eq_spec]

/-- The tool_call_id an event is addressed to. -/
def eventTargetId : SessionEvent → String
  | SessionEvent.start e => e.tool_call_id
  | SessionEvent.progress e => e.tool_call_id
  | SessionEvent.permissionPending tcid _ => tcid

/-- C3 counterexample: the claim that status/permission_status transitions are
monotonic within a turn is false.  After start and a progress event with
status "completed", a later progress event supplying status "in_progress"
reverts the record's status from "completed" to "in_progress"; and after a
permission request puts the record's permission_status at "pending", a
repeated tool-call-start event replaces the record, reverting
permission_status from "pending" to absent. -/
theorem tool_call_status_regression_cex :
    statusAt (applyEvents ([] : ToolCallDict)
      [SessionEvent.start { tool_call_id := "tc1", title := "t" },
       SessionEvent.progress { tool_call_id := "tc1", status := some "completed" }])
      "tc1" = some "completed" ∧
    statusAt (applyEvents ([] : ToolCallDict)
      [SessionEvent.start { tool_call_id := "tc1", title := "t" },
       SessionEvent.progress { tool_call_id := "tc1", status := some "completed" },
       SessionEvent.progress { tool_call_id := "tc1", status := some "in_progress" }])
      "tc1" = some "in_progress" ∧
    permStatusAt (applyEvents ([] : ToolCallDict)
      [SessionEvent.start { tool_call_id := "tc1", title := "t" },
       SessionEvent.permissionPending "tc1"
         [{ option_id := "allow", title := "Allow", description := "allow" }]])
      "tc1" = some "pending" ∧
    permStatusAt (applyEvents ([] : ToolCallDict)
      [SessionEvent.start { tool_call_id := "tc1", title := "t" },
       SessionEvent.permissionPending "tc1"
         [{ option_id := "allow", title := "Allow", description := "allow" }],
       SessionEvent.start { tool_call_id := "tc1", title := "t" }])
      "tc1" = none := by
  decide

/-- On an existing record, a progress event preserves `status` when its
status argument is `none`. -/
theorem progress_preserves_status (m : ToolCallDict) (id : String)
    (tc : ToolCallState) (h : dictGet m id = some tc) (title : Option String)
    (kind : Option String) (raw : Option PyObj)
    (locations : Option (List String)) :
    statusAt (update_tool_call_from_progress m id title kind none raw locations)
      id = tc.status := by
  unfold statusAt update_tool_call_from_progress
  rw [h]
  rw [dictGet_dictSet_self]
  simp [progressMerge_status]

/-- On an existing record, a progress event never touches
`permission_status`. -/
theorem progress_preserves_permission_status (m : ToolCallDict) (id : String)
    (tc : ToolCallState) (h : dictGet m id = some tc)
    (title kind status : Option String) (raw : Option PyObj)
    (locations : Option (List String)) :
    permStatusAt (update_tool_call_from_progress m id title kind status raw
      locations) id = tc.permission_status := by
  unfold permStatusAt update_tool_call_from_progress
  rw [h]
  rw [dictGet_dictSet_self]
  simp [progressMerge_permission_status]

/-- C3 amended: within a turn, a record's status and permission_status change
only when an event explicitly supplies a replacement: a progress event whose
status argument is omitted, null, or empty leaves status unchanged; every
progress event leaves permission_status unchanged; a permission request sets
permission_status to "pending" without touching status; and any event
addressed to a different tool_call_id leaves the record untouched.  (A
progress event explicitly supplying a status, or a repeated start, may still
revert, per the counterexample.) -/
theorem tool_call_transitions_amended (m : ToolCallDict) (id : String)
    (tc : ToolCallState) (h : dictGet m id = some tc) :
    (∀ e : ToolCallProgressEv, e.tool_call_id = id →
      (normStrField e.status = none →
        statusAt (handle_progress_update m e) id = tc.status) ∧
      permStatusAt (handle_progress_update m e) id = tc.permission_status) ∧
    (∀ opts : List PermissionOption,
      statusAt (applyEvent m (SessionEvent.permissionPending id opts)) id =
        tc.status ∧
      permStatusAt (applyEvent m (SessionEvent.permissionPending id opts)) id =
        some "pending") ∧
    (∀ ev : SessionEvent, eventTargetId ev ≠ id →
      dictGet (applyEvent m ev) id = some tc) := by
  refine ⟨?_, ?_, ?_⟩
  · intro e he
    constructor
    · intro hs
      unfold handle_progress_update
      rw [he, hs]
      exact progress_preserves_status m id tc h _ _ _ _
    · unfold handle_progress_update
      rw [he]
      exact progress_preserves_permission_status m id tc h _ _ _ _ _
  · intro opts
    simp only [applyEvent]
    rw [h]
    unfold statusAt permStatusAt
    rw [dictGet_dictSet_self]
    simp
  · intro ev hne
    cases ev with
    | start e =>
      have h1 : e.tool_call_id ≠ id := by simpa [eventTargetId] using hne
      simp only [applyEvent]
      unfold handle_start_update update_tool_call_from_start
      rw [dictGet_dictSet_ne _ _ _ _ (Ne.symm h1)]
      exact h
    | progress e =>
      have h1 : e.tool_call_id ≠ id := by simpa [eventTargetId] using hne
      simp only [applyEvent]
      unfold handle_progress_update update_tool_call_from_progress
      cases hd : dictGet m e.tool_call_id with
      | none =>
        dsimp only
        rw [dictGet_dictSet_ne _ _ _ _ (Ne.symm h1)]
        exact h
      | some tc' =>
        dsimp only
        rw [dictGet_dictSet_ne _ _ _ _ (Ne.symm h1)]
        exact h
    | permissionPending tcid opts =>
      have h1 : tcid ≠ id := by simpa [eventTargetId] using hne
      simp only [applyEvent]
      cases hd : dictGet m tcid with
      | none => exact h
      | some tc' =>
        dsimp only
        rw [dictGet_dictSet_ne _ _ _ _ (Ne.symm h1)]
        exact h

/-- Witness for the amended C3 theorem at a concrete state: a progress event
supplying an empty status leaves status "completed" and permission_status
"pending" untouched. -/
theorem tool_call_transitions_amended_witness :
    statusAt (handle_progress_update
      [("tc1", { tool_call_id := "tc1", title := "T", status := some "completed",
                 permission_status := some "pending" : ToolCallState })]
      { tool_call_id := "tc1", status := some "" }) "tc1" = some "completed" ∧
    permStatusAt (handle_progress_update
      [("tc1", { tool_call_id := "tc1", title := "T", status := some "completed",
                 permission_status := some "pending" : ToolCallState })]
      { tool_call_id := "tc1", status := some "" }) "tc1" = some "pending" := by
  have h := tool_call_transitions_amended
    [("tc1", { tool_call_id := "tc1", title := "T", status := some "completed",
               permission_status := some "pending" : ToolCallState })]
    "tc1"
    { tool_call_id := "tc1", title := "T", status := some "completed",
      permission_status := some "pending" }
    (by decide)
  have h2 := h.1 { tool_call_id := "tc1", status := some "" } rfl
  exact ⟨h2.1 (by decide), h2.2⟩

/-- C8 counterexample: the claim that an empty-string title keeps the prior
value is false — a progress event supplying title "" on a seen id clears the
record's title from "Read file" to "". -/
theorem progress_empty_title_clears_cex :
    (dictGet (handle_progress_update
      [("tc1", { tool_call_id := "tc1", title := "Read file", kind := some "read",
                 status := some "in_progress" : ToolCallState })]
      { tool_call_id := "tc1", title := some "" }) "tc1").map
        ToolCallState.title = some "" ∧
    some "" ≠ some "Read file" := by
  exact ⟨by decide, by decide⟩

/-- C8 amended: applyProgress on a seen id is a partial update — any field
whose argument is omitted or null keeps its prior value, and an empty-string
status or kind is treated as not provided (an empty-string title, by
contrast, clears the title); in particular supplying only status leaves
title, kind, raw_output and locations unchanged.  applyProgress on an unseen
id creates a record whose status defaults to "in_progress" when not
supplied. -/
theorem apply_progress_partial_update :
    (∀ (m : ToolCallDict) (id : String) (tc : ToolCallState)
        (e : ToolCallProgressEv), dictGet m id = some tc → e.tool_call_id = id →
      (e.title = none →
        (dictGet (handle_progress_update m e) id).map ToolCallState.title =
          some tc.title) ∧
      ((e.kind = none ∨ e.kind = some "") →
        (dictGet (handle_progress_update m e) id).map ToolCallState.kind =
          some tc.kind) ∧
      ((e.status = none ∨ e.status = some "") →
        (dictGet (handle_progress_update m e) id).map ToolCallState.status =
          some tc.status) ∧
      (e.raw_output = none →
        (dictGet (handle_progress_update m e) id).map ToolCallState.raw_output =
          some tc.raw_output) ∧
      ((e.locations = none ∨ e.locations = some []) →
        (dictGet (handle_progress_update m e) id).map ToolCallState.locations =
          some tc.locations) ∧
      (e.title = none → e.kind = none → e.raw_output = none →
        e.locations = none →
        dictGet (handle_progress_update m e) id =
          some { tc with status := (normStrField e.status).elim tc.status some })) ∧
    (∀ (m : ToolCallDict) (e : ToolCallProgressEv),
      dictGet m e.tool_call_id = none →
      (dictGet (handle_progress_update m e) e.tool_call_id).isSome = true ∧
      ((e.status = none ∨ e.status = some "") →
        statusAt (handle_progress_update m e) e.tool_call_id =
          some "in_progress")) := by
  constructor
  · intro m id tc e h he
    unfold handle_progress_update update_tool_call_from_progress
    rw [he, h]
    rw [dictGet_dictSet_self]
    refine ⟨?_, ?_, ?_, ?_, ?_, ?_⟩
    · intro ht
      simp [ht, progressMerge_title]
    · intro hk
      have hk' : normStrField e.kind = none := by
        rcases hk with hk | hk <;> simp [hk, normStrField, optStrTruthy]
      simp [hk', progressMerge_kind]
    · intro hs
      have hs' : normStrField e.status = none := by
        rcases hs with hs | hs <;> simp [hs, normStrField, optStrTruthy]
      simp [hs', progressMerge_status]
    · intro hr
      have hr' : normalizeRawOutput e.raw_output = none := by
        rw [hr]; rfl
      simp [hr', progressMerge_raw_output]
    · intro hl
      have hl' : normLocations e.locations = none := by
        rcases hl with hl | hl <;> simp [hl, normLocations, optListTruthy]
      simp [hl', progressMerge_locations]
    · intro ht hk hr hl
      have hk' : normStrField e.kind = none := by simp [hk, normStrField]
      have hr' : normalizeRawOutput e.raw_output = none := by rw [hr]; rfl
      have hl' : normLocations e.locations = none := by
        simp [hl, normLocations, optListTruthy]
      rw [ht, hk', hr', hl', progressMerge_status_only]
  · intro m e h
    unfold handle_progress_update update_tool_call_from_progress
    rw [h]
    constructor
    · rw [dictGet_dictSet_self]
      rfl
    · intro hs
      have hs' : normStrField e.status = none := by
        rcases hs with hs | hs <;> simp [hs, normStrField, optStrTruthy]
      unfold statusAt
      rw [dictGet_dictSet_self]
      simp [hs', optStrTruthy]

/-- Witness for C8 amended at a concrete state: supplying only status updates
the status and leaves every other field unchanged; an unseen id is created
with default status "in_progress". -/
theorem apply_progress_partial_update_witness :
    dictGet (handle_progress_update
      [("tc1", { tool_call_id := "tc1", title := "T", kind := some "read",
                 status := some "in_progress", raw_output := some (PyObj.pystr "out"),
                 locations := some ["/a/b"] : ToolCallState })]
      { tool_call_id := "tc1", status := some "completed" }) "tc1" =
      some { tool_call_id := "tc1", title := "T", kind := some "read",
             status := some "completed", raw_output := some (PyObj.pystr "out"),
             locations := some ["/a/b"] : ToolCallState } ∧
    statusAt (handle_progress_update ([] : ToolCallDict)
      { tool_call_id := "tc9" }) "tc9" = some "in_progress" := by
  have h1 := (apply_progress_partial_update.1
    [("tc1", { tool_call_id := "tc1", title := "T", kind := some "read",
               status := some "in_progress", raw_output := some (PyObj.pystr "out"),
               locations := some ["/a/b"] : ToolCallState })]
    "tc1"
    { tool_call_id := "tc1", title := "T", kind := some "read",
      status := some "in_progress", raw_output := some (PyObj.pystr "out"),
      locations := some ["/a/b"] }
    { tool_call_id := "tc1", status := some "completed" }
    (by decide) rfl).2.2.2.2.2 rfl rfl rfl rfl
  have h2 := (apply_progress_partial_update.2 ([] : ToolCallDict)
    { tool_call_id := "tc9" } (by decide)).2 (Or.inl rfl)
  exact ⟨h1.trans (by decide), h2⟩

/-- Every key of a serialized record comes from the six declared dataclass
fields. -/
theorem mem_serialize_entry_key (tc : ToolCallState) (kv : String × PyObj)
    (h : kv ∈ serialize_tool_call_entry tc) :
    kv.1 = "tool_call_id" ∨ kv.1 = "title" ∨ kv.1 = "kind" ∨ kv.1 = "status" ∨
      kv.1 = "raw_output" ∨ kv.1 = "locations" := by
  unfold serialize_tool_call_entry asdictToolCall at h
  rcases List.mem_filterMap.mp h with ⟨a, ha, hfa⟩
  simp only [List.mem_cons, List.not_mem_nil, or_false] at ha
  rcases ha with rfl | rfl | rfl | rfl | rfl | rfl <;>
    · rcases Option.map_eq_some'.mp hfa with ⟨v, hv, rfl⟩
      simp

/-- C10: every entry of the serialized tool-call list contains only keys drawn
from the six declared record fields (tool_call_id, title, kind, status,
raw_output, locations), null-valued fields are omitted, and the
permission_options / permission_status / selected_option_id / diffs /
session_id attributes that request_permission sets on a record never appear
in the serialized list. -/
theorem serialize_tool_calls_declared_fields_only :
    (∀ (m : ToolCallDict), ∀ entry ∈ serialize_tool_calls m, ∀ kv ∈ entry,
      (kv.1 = "tool_call_id" ∨ kv.1 = "title" ∨ kv.1 = "kind" ∨
        kv.1 = "status" ∨ kv.1 = "raw_output" ∨ kv.1 = "locations") ∧
      kv.1 ≠ "permission_options" ∧ kv.1 ≠ "permission_status" ∧
      kv.1 ≠ "selected_option_id" ∧ kv.1 ≠ "diffs" ∧ kv.1 ≠ "session_id") ∧
    (∀ tc : ToolCallState, tc.kind = none → tc.status = none →
      tc.raw_output = none → tc.locations = none →
      serialize_tool_call_entry tc =
        [("tool_call_id", PyObj.pystr tc.tool_call_id),
         ("title", PyObj.pystr tc.title)]) := by
  constructor
  · intro m entry he kv hkv
    rcases List.mem_map.mp he with ⟨e, hem, heq⟩
    subst heq
    have hk := mem_serialize_entry_key e.2 kv hkv
    refine ⟨hk, ?_⟩
    rcases hk with h | h | h | h | h | h <;> rw [h] <;> exact (by decide)
  · intro tc h1 h2 h3 h4
    unfold serialize_tool_call_entry asdictToolCall
    rw [h1, h2, h3, h4]
    rfl

/-- Witness for C10 at a concrete record carrying permission attributes: the
serialized entry contains the declared "status" key, and no key named
"permission_status" or "permission_options" occurs in it. -/
theorem serialize_tool_calls_declared_fields_only_witness :
    ("status", PyObj.pystr "completed") ∈ serialize_tool_call_entry
      { tool_call_id := "tc1", title := "T", status := some "completed",
        permission_options := some [{ option_id := "a", title := "A",
                                      description := "allow" }],
        permission_status := some "pending", selected_option_id := some "a",
        diffs := some [{ path := "f", content := "d" }],
        session_id := some "s" : ToolCallState } ∧
    ("status", PyObj.pystr "completed").1 ≠ "permission_status" ∧
    ("status", PyObj.pystr "completed").1 ≠ "permission_options" := by
  have h := serialize_tool_calls_declared_fields_only.1
    [("tc1", { tool_call_id := "tc1", title := "T", status := some "completed",
               permission_options := some [{ option_id := "a", title := "A",
                                             description := "allow" }],
               permission_status := some "pending", selected_option_id := some "a",
               diffs := some [{ path := "f", content := "d" }],
               session_id := some "s" : ToolCallState })]
    (serialize_tool_call_entry
      { tool_call_id := "tc1", title := "T", status := some "completed",
        permission_options := some [{ option_id := "a", title := "A",
                                      description := "allow" }],
        permission_status := some "pending", selected_option_id := some "a",
        diffs := some [{ path := "f", content := "d" }],
        session_id := some "s" : ToolCallState })
    (by decide)
    ("status", PyObj.pystr "completed") (by decide)
  exact ⟨by decide, h.2.2.1, h.2.1⟩

/-! ## `permission_manager.py` -/

/-- The state of an `asyncio.Future[str]`: pending, or completed with a
result (`set_result`). -/
inductive FutureState : Type where
  | pending
  | resolved (v : String)
deriving DecidableEq

/-- `PendingRequest` from `permission_manager.py`. -/
structure PendingRequest where
  future : FutureState
  options : List PermissionOption
deriving DecidableEq

/-- The `(session_id, tool_call_id)` key of a pending permission request. -/
abbrev PermKey : Type := String × String

/-- The `_pending` dict of a `PermissionManager`. -/
abbrev PermState : Type := List (PermKey × PendingRequest)

/-- `PermissionManager.create_request`: register a fresh pending future for
the key, replacing any prior entry. -/
def create_request (st : PermState) (session_id tool_call_id : String)
    (options : List PermissionOption) : PermState :=
  dictSet st ((session_id, tool_call_id) : PermKey)
    { future := FutureState.pending, options := options }

/-- `PermissionManager.resolve`: complete the future if present and not
already done; returns the new state and the reported boolean. -/
def resolve (st : PermState) (session_id tool_call_id option_id : String) :
    PermState × Bool :=
  match dictGet st ((session_id, tool_call_id) : PermKey) with
  | none => (st, false)
  | some req =>
    match req.future with
    | FutureState.resolved _ => (st, false)
    | FutureState.pending =>
      (dictSet st ((session_id, tool_call_id) : PermKey)
        { req with future := FutureState.resolved option_id }, true)

/-- `PermissionManager.cleanup`: drop the entry regardless of state. -/
def cleanup (st : PermState) (session_id tool_call_id : String) : PermState :=
  dictRemove st ((session_id, tool_call_id) : PermKey)

/-- `PermissionManager._find_reject_option_id`: the option_id of the first
option whose description contains "reject", else the literal
"reject_once". -/
def find_reject_option_id (options : List PermissionOption) : String :=
  match options.find? (fun opt => strContains opt.description "reject") with
  | some opt => opt.option_id
  | none => "reject_once"

/-- Is the future still pending (`not future.done()`)? -/
def isPending : FutureState → Bool
  | FutureState.pending => true
  | FutureState.resolved _ => false

/-- The body of the loop in `reject_all_pending`: pop the key; if a not-done
request was there, complete its future with the reject option id.  The
accumulator carries the evolving `_pending` dict, the `rejected` counter,
and the list of performed future completions `(key, option_id)`. -/
def rejectStep (acc : PermState × Nat × List (PermKey × String))
    (key : PermKey) : PermState × Nat × List (PermKey × String) :=
  match dictGet acc.1 key with
  | none => acc
  | some req =>
    let s := dictRemove acc.1 key
    match req.future with
    | FutureState.resolved _ => (s, acc.2.1, acc.2.2)
    | FutureState.pending =>
      (s, acc.2.1 + 1, acc.2.2 ++ [(key, find_reject_option_id req.options)])

/-- `PermissionManager.reject_all_pending`: pop every key of the session,
completing each still-pending future with the reject option id; returns the
new state, the count of rejections, and the completions performed. -/
def reject_all_pending (st : PermState) (session_id : String) :
    PermState × Nat × List (PermKey × String) :=
  let keys := (st.filter (fun e => e.1.1 = session_id)).map Prod.fst
  keys.foldl rejectStep (st, 0, [])

/-- The closed form of `reject_all_pending`: every entry of the session is
removed (others untouched), each still-pending one is completed with the
reject option id chosen from its own option list, and the count is the
number of still-pending entries of the session. -/
def reject_all_pending_spec (st : PermState) (session_id : String) :
    PermState × Nat × List (PermKey × String) :=
  (st.filter (fun e => ¬ e.1.1 = session_id),
   (st.filter (fun e => e.1.1 = session_id ∧ isPending e.2.future)).length,
   (st.filter (fun e => e.1.1 = session_id ∧ isPending e.2.future)).map
     (fun e => (e.1, find_reject_option_id e.2.options)))

/-- Events in `prompt_and_reply` up to the prompt RPC, in program order
(`default_acp_client.py` lines 156-187). -/
inductive PromptEvent : Type where
  | autoRejected (n : Nat)
  | logAutoReject (n : Nat)
  | lockAcquired
  | stateReset
  | promptSent
deriving DecidableEq

/-- The prelude of `prompt_and_reply`: auto-reject pending permissions, log
the count when nonzero, then acquire the per-session lock, reset the session
tool-call state, and send the prompt. -/
def prompt_and_reply_prelude (pm : PermState) (session_id : String) :
    PermState × List PromptEvent :=
  let r := reject_all_pending pm session_id
  (r.1,
   [PromptEvent.autoRejected r.2.1] ++
     (if r.2.1 ≠ 0 then [PromptEvent.logAutoReject r.2.1] else []) ++
     [PromptEvent.lockAcquired, PromptEvent.stateReset, PromptEvent.promptSent])

theorem dictRemove_of_not_mem {κ α : Type} [DecidableEq κ]
    {m : List (κ × α)} {k : κ} (h : k ∉ m.map Prod.fst) :
    dictRemove m k = m := by
  induction m with
  | nil => rfl
  | cons e rest ih =>
    simp only [List.map_cons, List.mem_cons] at h
    push_neg at h
    have he : ¬ e.1 = k := fun hk => h.1 hk.symm
    simp [dictRemove, he, ih h.2]

theorem rejectStep_acc (s : PermState) (n : Nat)
    (res : List (PermKey × String)) (k : PermKey) :
    rejectStep (s, n, res) k =
      ((rejectStep (s, 0, []) k).1,
       n + (rejectStep (s, 0, []) k).2.1,
       res ++ (rejectStep (s, 0, []) k).2.2) := by
  unfold rejectStep
  cases hd : dictGet s k with
  | none => simp
  | some req => rcases hf : req.future with _ | v <;> simp [hf]

theorem rejectFold_acc (keys : List PermKey) :
    ∀ (s : PermState) (n : Nat) (res : List (PermKey × String)),
      keys.foldl rejectStep (s, n, res) =
        ((keys.foldl rejectStep (s, 0, [])).1,
         n + (keys.foldl rejectStep (s, 0, [])).2.1,
         res ++ (keys.foldl rejectStep (s, 0, [])).2.2) := by
  induction keys with
  | nil => intro s n res; simp
  | cons k ks ih =>
    intro s n res
    simp only [List.foldl_cons]
    rw [rejectStep_acc s n res k]
    rcases hA : rejectStep (s, (0 : Nat), ([] : List (PermKey × String))) k with
      ⟨s', n', res'⟩
    rw [ih s' (n + n') (res ++ res'), ih s' n' res']
    simp [Nat.add_assoc, List.append_assoc]

theorem rejectFold_skip (e : PermKey × PendingRequest) (keys : List PermKey)
    (hk : ∀ k ∈ keys, ¬ e.1 = k) :
    ∀ (s : PermState) (n : Nat) (res : List (PermKey × String)),
      keys.foldl rejectStep (e :: s, n, res) =
        (e :: (keys.foldl rejectStep (s, n, res)).1,
         (keys.foldl rejectStep (s, n, res)).2.1,
         (keys.foldl rejectStep (s, n, res)).2.2) := by
  induction keys with
  | nil => intro s n res; simp
  | cons k ks ih =>
    intro s n res
    have hek : ¬ e.1 = k := hk k (List.mem_cons_self k ks)
    have hks : ∀ k' ∈ ks, ¬ e.1 = k' := fun k' hk' =>
      hk k' (List.mem_cons_of_mem k hk')
    simp only [List.foldl_cons]
    have hstep : rejectStep (e :: s, n, res) k =
        (e :: (rejectStep (s, n, res) k).1,
         (rejectStep (s, n, res) k).2.1,
         (rejectStep (s, n, res) k).2.2) := by
      unfold rejectStep
      simp only [dictGet, hek, if_neg hek]
      cases hd : dictGet s k with
      | none => simp
      | some req =>
        rcases hf : req.future with _ | v <;> simp [hf, dictRemove, hek]
    rw [hstep]
    rcases hB : rejectStep (s, n, res) k with ⟨s', n', res'⟩
    exact ih hks s' n' res'

/-- Closed form of `reject_all_pending` on a well-formed (unique-key) pending
dict: all entries of the session are removed, the others are untouched, each
still-pending future of the session is completed with the reject option id
drawn from its own option list, and the returned count is the number of such
completions. -/
theorem reject_all_pending_eq_spec (st : PermState) (sid : String)
    (h : (st.map Prod.fst).Nodup) :
    reject_all_pending st sid = reject_all_pending_spec st sid := by
  induction st with
  | nil => rfl
  | cons e rest ih =>
    rw [List.map_cons, List.nodup_cons] at h
    have hnotin : e.1 ∉ rest.map Prod.fst := h.1
    have hrest := ih h.2
    simp only [reject_all_pending, reject_all_pending_spec] at hrest ⊢
    by_cases he : e.1.1 = sid
    · have hkeys : List.map Prod.fst
          (List.filter (fun x => decide (x.1.1 = sid)) (e :: rest)) =
          e.1 :: List.map Prod.fst
            (List.filter (fun x => decide (x.1.1 = sid)) rest) := by
        simp [List.filter_cons, he]
      rcases hf : e.2.future with _ | v
      · have hstep : rejectStep ((e :: rest : PermState), 0, []) e.1 =
            (rest, 1, [(e.1, find_reject_option_id e.2.options)]) := by
          unfold rejectStep
          simp [dictGet, dictRemove, dictRemove_of_not_mem hnotin, hf]
        rw [hkeys, List.foldl_cons, hstep]
        rw [rejectFold_acc _ rest 1 [(e.1, find_reject_option_id e.2.options)]]
        rw [hrest]
        simp [he, hf, isPending, Nat.add_comm]
      · have hstep : rejectStep ((e :: rest : PermState), 0, []) e.1 =
            (rest, 0, []) := by
          unfold rejectStep
          simp [dictGet, dictRemove, dictRemove_of_not_mem hnotin, hf]
        rw [hkeys, List.foldl_cons, hstep]
        rw [hrest]
        simp [he, hf, isPending]
    · have hk : ∀ k ∈ (rest.filter (fun x => x.1.1 = sid)).map Prod.fst,
          ¬ e.1 = k := by
        intro k hkmem heq
        rcases List.mem_map.mp hkmem with ⟨x, hx, rfl⟩
        have hxs : x.1.1 = sid := by
          simpa using (List.mem_filter.mp hx).2
        exact he (by rw [heq]; exact hxs)
      have hkeys : List.map Prod.fst
          (List.filter (fun x => decide (x.1.1 = sid)) (e :: rest)) =
          List.map Prod.fst
            (List.filter (fun x => decide (x.1.1 = sid)) rest) := by
        simp [List.filter_cons, he]
      rw [hkeys, rejectFold_skip e _ hk rest 0 []]
      rw [hrest]
      simp [he, isPending]

/-- C4: a `prompt_and_reply` call first auto-resolves every pending
permission request of the session before acquiring the lock: each
still-pending future is completed with the id of the (first) option whose
description contains the substring "reject" — falling back to the literal
"reject_once" when none matches — every key of the session is removed from
the pending dict (others untouched), the count of rejections is returned,
and the ordering of the prelude places the auto-reject (and its log entry,
emitted exactly when the count is nonzero) before the lock acquisition. -/
theorem prompt_auto_rejects_pending (pm : PermState) (session_id : String)
    (h : (pm.map Prod.fst).Nodup) :
    reject_all_pending pm session_id = reject_all_pending_spec pm session_id ∧
    (∀ opts : List PermissionOption,
      (∀ o ∈ opts, strContains o.description "reject" = false) →
      find_reject_option_id opts = "reject_once") ∧
    (∀ (opts : List PermissionOption) (o : PermissionOption),
      opts.find? (fun o' => strContains o'.description "reject") = some o →
      find_reject_option_id opts = o.option_id) ∧
    (∃ pre post, (prompt_and_reply_prelude pm session_id).2 =
        pre ++ PromptEvent.lockAcquired :: post ∧
      PromptEvent.autoRejected (reject_all_pending pm session_id).2.1 ∈ pre ∧
      ((reject_all_pending pm session_id).2.1 ≠ 0 →
        PromptEvent.logAutoReject (reject_all_pending pm session_id).2.1 ∈ pre)) := by
  refine ⟨reject_all_pending_eq_spec pm session_id h, ?_, ?_, ?_⟩
  · intro opts hnone
    unfold find_reject_option_id
    rw [List.find?_eq_none.mpr]
    intro o ho
    simp [hnone o ho]
  · intro opts o hfind
    unfold find_reject_option_id
    rw [hfind]
  · refine ⟨[PromptEvent.autoRejected (reject_all_pending pm session_id).2.1] ++
      (if (reject_all_pending pm session_id).2.1 ≠ 0 then
        [PromptEvent.logAutoReject (reject_all_pending pm session_id).2.1]
      else []),
      [PromptEvent.stateReset, PromptEvent.promptSent], ?_, ?_, ?_⟩
    · unfold prompt_and_reply_prelude
      simp
    · simp
    · intro hne
      simp [hne]

/-- Witness for C4 at a concrete pending dict: the session's still-pending
request is completed with the option whose description contains "reject",
the already-done entry is dropped without counting, the other session's
entry is untouched, and the rejection count is 1. -/
theorem prompt_auto_rejects_pending_witness :
    reject_all_pending
      [((("s1", "tc1") : PermKey),
        { future := FutureState.pending,
          options := [{ option_id := "allow_once", title := "Allow",
                        description := "allow" },
                      { option_id := "reject_once_id", title := "Reject",
                        description := "reject this action" }] }),
       ((("s1", "tc2") : PermKey),
        { future := FutureState.resolved "allow_once", options := [] }),
       ((("s2", "tc3") : PermKey),
        { future := FutureState.pending, options := [] })] "s1" =
      ([((("s2", "tc3") : PermKey),
         { future := FutureState.pending, options := [] })], 1,
       [((("s1", "tc1") : PermKey), "reject_once_id")]) := by
  have h := (prompt_auto_rejects_pending
    [((("s1", "tc1") : PermKey),
      { future := FutureState.pending,
        options := [{ option_id := "allow_once", title := "Allow",
                      description := "allow" },
                    { option_id := "reject_once_id", title := "Reject",
                      description := "reject this action" }] }),
     ((("s1", "tc2") : PermKey),
      { future := FutureState.resolved "allow_once", options := [] }),
     ((("s2", "tc3") : PermKey),
      { future := FutureState.pending, options := [] })] "s1" (by decide)).1
  exact h.trans (by decide)

/-! ## `default_acp_client.py`: prompt blocks (C1) -/

/-- A chat attachment (`FileAttachment` / `NotebookAttachment` from
jupyterlab_chat): `value` is the path, `mimetype` is optional. -/
structure Attachment where
  value : String
  mimetype : Option String := none
deriving DecidableEq

/-- An ACP content block as used in the prompt list. -/
inductive ContentBlock : Type where
  | text (text : String)
  | resource (uri : String) (name : String) (mime_type : Option String)
deriving DecidableEq

/-- The prompt content blocks built by `prompt_and_reply`
(`default_acp_client.py` lines 182-187): only the text block is sent; the
`attachments` parameter is never consulted. -/
def prompt_blocks (prompt : String) (attachments : Option (List Attachment)) :
    List ContentBlock :=
  [ContentBlock.text prompt]

/-- Modelled from the spec: the §6 attachment-to-block mapping that
`prompt_and_reply` is documented (and tested, in
`tests/test_default_acp_client.py`) to apply — one text block with the
prompt, then one reference block per attachment whose location is the
attachment's path, whose display name is the path's final component (or the
placeholder `<attachment>` when the path is empty), and whose MIME type is
forwarded from the attachment. -/
def spec_prompt_blocks (prompt : String)
    (attachments : Option (List Attachment)) : List ContentBlock :=
  ContentBlock.text prompt ::
    (attachments.getD []).map (fun a =>
      ContentBlock.resource a.value
        (if a.value = "" then "<attachment>" else lastComponent a.value)
        a.mimetype)

/-- C1 (code bug): with a non-empty attachments list, `prompt_and_reply`
sends only the text block — the attachment reference blocks required by the
spec (and asserted by the repository's own tests, e.g.
`test_file_attachment_appends_resource_block`) are never built. -/
theorem prompt_and_reply_drops_attachments :
    prompt_blocks "analyze this"
        (some [{ value := "notebooks/analysis.py" }]) =
      [ContentBlock.text "analyze this"] ∧
    spec_prompt_blocks "analyze this"
        (some [{ value := "notebooks/analysis.py" }]) =
      [ContentBlock.text "analyze this",
       ContentBlock.resource "notebooks/analysis.py" "analysis.py" none] ∧
    prompt_blocks "analyze this" (some [{ value := "notebooks/analysis.py" }]) ≠
      spec_prompt_blocks "analyze this"
        (some [{ value := "notebooks/analysis.py" }]) := by
  exact ⟨rfl, by decide, by decide⟩

/-! ## `default_acp_client.py`: `request_permission` (C2) -/

/-- `SessionState` from `tool_call_manager.py`. -/
structure SessionState where
  tool_calls : List (String × ToolCallState) := []
  message_id : Option String := none
deriving DecidableEq

/-- The `_sessions` dict of a `ToolCallManager`. -/
abbrev SessionsDict : Type := List (String × SessionState)

/-- `ToolCallManager._ensure_session`: return (and insert if absent) the
session's state. -/
def ensure_session (sessions : SessionsDict) (session_id : String) :
    SessionsDict × SessionState :=
  match dictGet sessions session_id with
  | some ss => (sessions, ss)
  | none => (dictSet sessions session_id {}, {})

/-- A content item of a `ToolCall` payload: a file-edit block carrying diff
content, or anything else. -/
inductive ToolCallContent : Type where
  | fileEdit (path : String) (old_text : Option String) (new_text : String)
  | otherContent
deriving DecidableEq

/-- Modelled from the spec: `extract_diffs` is imported from
`tool_call_renderer` in `default_acp_client.py` but its definition is not
among the provided sources.  Per spec §4.1/§2 it extracts the diff content
(file-edit blocks) from the permission-callback payload. -/
def extract_diffs (content : Option (List ToolCallContent)) : List Diff :=
  (content.getD []).filterMap (fun c =>
    match c with
    | ToolCallContent.fileEdit path _ new_text =>
      some { path := path, content := new_text }
    | ToolCallContent.otherContent => none)

/-- An agent-supplied `PermissionOption` (acp.schema): id, display name,
and an optional kind. -/
structure AcpPermissionOption where
  option_id : String
  name : String
  kind : Option String := none
deriving DecidableEq

/-- The fields of the `ToolCall` payload of a permission request used by
`request_permission`. -/
structure ToolCallPayload where
  tool_call_id : String
  content : Option (List ToolCallContent) := none
deriving DecidableEq

/-- A Python runtime error escaping the handler.  `attributeErrorNone` is
the `AttributeError` raised by `tc.permission_options = ...` when
`session_state.tool_calls.get(tool_call_id)` returned `None`. -/
inductive PyErr : Type where
  | attributeErrorNone
deriving DecidableEq

/-- The synchronous part of `request_permission` up to the `await future`
(`default_acp_client.py` lines 310-350): convert the agent options, register
the pending future, look the record up with `.get` (no record is created),
write options/pending status/session id and any extracted diffs onto it, and
flush.  When no record exists the attribute assignment on `None` raises. -/
def request_permission_before_await (sessions : SessionsDict) (pm : PermState)
    (session_id : String) (options : List AcpPermissionOption)
    (tool_call : ToolCallPayload) :
    Except PyErr (SessionsDict × PermState × List PermissionOption) :=
  let permission_options := options.map (fun opt =>
    { option_id := opt.option_id, title := opt.name,
      description := opt.kind.getD "" : PermissionOption })
  let pm := create_request pm session_id tool_call.tool_call_id
    permission_options
  let em := ensure_session sessions session_id
  match dictGet em.2.tool_calls tool_call.tool_call_id with
  | none => Except.error PyErr.attributeErrorNone
  | some tc =>
    let tc := { tc with permission_options := some permission_options,
                        permission_status := some "pending",
                        session_id := some session_id }
    let diffs := extract_diffs tool_call.content
    let tc := if diffs ≠ [] then { tc with diffs := some diffs } else tc
    let ss := { em.2 with
      tool_calls := dictSet em.2.tool_calls tool_call.tool_call_id tc }
    Except.ok (dictSet em.1 session_id ss, pm, permission_options)

/-- The part of `request_permission` after the future resolves
(lines 350-360): drop the pending entry, mark the record resolved with the
selected option, flush again, and return the selected option id as the RPC
result. -/
def request_permission_after_await (sessions : SessionsDict) (pm : PermState)
    (session_id tool_call_id selected_option_id : String) :
    SessionsDict × PermState × String :=
  let pm := cleanup pm session_id tool_call_id
  let sessions :=
    match dictGet sessions session_id with
    | none => sessions
    | some ss =>
      match dictGet ss.tool_calls tool_call_id with
      | none => sessions
      | some tc =>
        dictSet sessions session_id { ss with
          tool_calls := dictSet ss.tool_calls tool_call_id
            { tc with permission_status := some "resolved",
                      selected_option_id := some selected_option_id } }
  (sessions, pm, selected_option_id)

/-- `request_permission` end to end, with `selected_option_id` standing for
the value the awaited future resolves to. -/
def request_permission (sessions : SessionsDict) (pm : PermState)
    (session_id : String) (options : List AcpPermissionOption)
    (tool_call : ToolCallPayload) (selected_option_id : String) :
    Except PyErr (SessionsDict × PermState × String) :=
  match request_permission_before_await sessions pm session_id options
    tool_call with
  | Except.error e => Except.error e
  | Except.ok (sessions, pm, _) =>
    Except.ok (request_permission_after_await sessions pm session_id
      tool_call.tool_call_id selected_option_id)

/-- C2 (code bug): when the agent's permission request arrives before any
tool-call-start for that id, `request_permission` does not create the
record — `session_state.tool_calls.get(...)` returns `None` and the
attribute assignment raises, failing the RPC.  With the record present, the
handler does write the converted option list, "pending" status and session
id onto it before suspending, and on resolution marks it resolved and
returns the selected option id. -/
theorem request_permission_missing_record :
    (request_permission ([] : SessionsDict) ([] : PermState) "s1"
        [{ option_id := "allow", name := "Allow", kind := some "allow_once" }]
        { tool_call_id := "tc1" } "allow" =
      Except.error PyErr.attributeErrorNone) ∧
    (request_permission [("s1", { tool_calls := [] })] ([] : PermState) "s1"
        [{ option_id := "allow", name := "Allow", kind := some "allow_once" }]
        { tool_call_id := "tc1" } "allow" =
      Except.error PyErr.attributeErrorNone) ∧
    (request_permission_before_await
        [("s1", { tool_calls :=
          [("tc1", { tool_call_id := "tc1", title := "T" })] })]
        ([] : PermState) "s1"
        [{ option_id := "allow", name := "Allow", kind := some "allow_once" }]
        { tool_call_id := "tc1" } =
      Except.ok
        ([("s1", { tool_calls := [("tc1",
            { tool_call_id := "tc1", title := "T",
              permission_options := some
                [{ option_id := "allow", title := "Allow",
                   description := "allow_once" }],
              permission_status := some "pending",
              session_id := some "s1" })] })],
         [((("s1", "tc1") : PermKey),
           { future := FutureState.pending,
             options := [{ option_id := "allow", title := "Allow",
                           description := "allow_once" }] })],
         [{ option_id := "allow", title := "Allow",
            description := "allow_once" }])) ∧
    (request_permission
        [("s1", { tool_calls :=
          [("tc1", { tool_call_id := "tc1", title := "T" })] })]
        ([] : PermState) "s1"
        [{ option_id := "allow", name := "Allow", kind := some "allow_once" }]
        { tool_call_id := "tc1" } "allow" =
      Except.ok
        ([("s1", { tool_calls := [("tc1",
            { tool_call_id := "tc1", title := "T",
              permission_options := some
                [{ option_id := "allow", title := "Allow",
                   description := "allow_once" }],
              permission_status := some "resolved",
              selected_option_id := some "allow",
              session_id := some "s1" })] })],
         ([] : PermState), "allow")) := by
  refine ⟨rfl, rfl, rfl, rfl⟩

/-! ## `terminal_manager.py` -/

/-- The Linux signal-number table of Python's `signal.Signals` (the values
`signal.Signals(n).name` succeeds on); other numbers raise `ValueError`. -/
def knownSignalName : Nat → Option String
  | 1 => some "SIGHUP"
  | 2 => some "SIGINT"
  | 3 => some "SIGQUIT"
  | 4 => some "SIGILL"
  | 5 => some "SIGTRAP"
  | 6 => some "SIGABRT"
  | 7 => some "SIGBUS"
  | 8 => some "SIGFPE"
  | 9 => some "SIGKILL"
  | 10 => some "SIGUSR1"
  | 11 => some "SIGSEGV"
  | 12 => some "SIGUSR2"
  | 13 => some "SIGPIPE"
  | 14 => some "SIGALRM"
  | 15 => some "SIGTERM"
  | 16 => some "SIGSTKFLT"
  | 17 => some "SIGCHLD"
  | 18 => some "SIGCONT"
  | 19 => some "SIGSTOP"
  | 20 => some "SIGTSTP"
  | 21 => some "SIGTTIN"
  | 22 => some "SIGTTOU"
  | 23 => some "SIGURG"
  | 24 => some "SIGXCPU"
  | 25 => some "SIGXFSZ"
  | 26 => some "SIGVTALRM"
  | 27 => some "SIGPROF"
  | 28 => some "SIGWINCH"
  | 29 => some "SIGIO"
  | 30 => some "SIGPWR"
  | 31 => some "SIGSYS"
  | 34 => some "SIGRTMIN"
  | 64 => some "SIGRTMAX"
  | _ => none

/-- `TerminalInfo` from `terminal_manager.py` (the OS process handle and the
background reader task are external resources and not part of the embedded
state). -/
structure TerminalInfo where
  session_id : String
  output_buffer : List Nat := []
  output_byte_limit : Option Nat := none
  truncated : Bool := false
  exit_code : Option Nat := none
  exit_signal : Option String := none
deriving DecidableEq

/-- `TerminalManager._set_exit_status`: a non-negative return code becomes
`exit_code`; a negative one `-N` becomes the signal name for `N` (synthetic
`SIG<N>` when unknown); `None` clears both. -/
def set_exit_status (info : TerminalInfo) (returncode : Option Int) :
    TerminalInfo :=
  match returncode with
  | none => { info with exit_code := none, exit_signal := none }
  | some rc =>
    if rc < 0 then
      let nm :=
        match knownSignalName rc.natAbs with
        | some n => n
        | none => "SIG" ++ toString rc.natAbs
      { info with exit_code := none, exit_signal := some nm }
    else
      { info with exit_code := some rc.toNat, exit_signal := none }

/-- C6: setting a terminal's exit status from a raw return code: a
non-negative N yields exit_code=N with no signal; -9 yields the named signal
SIGKILL with exit_code null; -N for an unknown N yields the synthetic name
SIG<N>; a null return code yields both fields null; exactly one of
exit_code/exit_signal is non-null once the process has exited; and the
operation is idempotent. -/
theorem set_exit_status_spec :
    (∀ (info : TerminalInfo) (n : Int), 0 ≤ n →
      set_exit_status info (some n) =
        { info with exit_code := some n.toNat, exit_signal := none }) ∧
    (∀ info : TerminalInfo, set_exit_status info (some (-9)) =
      { info with exit_code := none, exit_signal := some "SIGKILL" }) ∧
    (∀ info : TerminalInfo, set_exit_status info none =
      { info with exit_code := none, exit_signal := none }) ∧
    (∀ (info : TerminalInfo) (n : Nat), knownSignalName n = none → 0 < n →
      set_exit_status info (some (-(n : Int))) =
        { info with exit_code := none,
                    exit_signal := some ("SIG" ++ toString n) }) ∧
    (∀ (info : TerminalInfo) (rc : Int),
      (set_exit_status info (some rc)).exit_code.isSome =
        !(set_exit_status info (some rc)).exit_signal.isSome) ∧
    (∀ (info : TerminalInfo) (rc : Option Int),
      set_exit_status (set_exit_status info rc) rc =
        set_exit_status info rc) := by
  refine ⟨?_, ?_, ?_, ?_, ?_, ?_⟩
  · intro info n hn
    unfold set_exit_status
    dsimp only
    rw [if_neg (by omega)]
  · intro info
    rfl
  · intro info
    rfl
  · intro info n hnone hpos
    unfold set_exit_status
    dsimp only
    rw [if_pos (by omega)]
    have habs : (-(n : Int)).natAbs = n := by
      simp [Int.natAbs_neg]
    rw [habs, hnone]
  · intro info rc
    unfold set_exit_status
    by_cases h : rc < 0 <;> simp [h]
  · intro info rc
    cases rc with
    | none => rfl
    | some n =>
      unfold set_exit_status
      by_cases h : n < 0 <;> simp [h]

/-- Witness for C6 at concrete inputs: return code 7 gives (7, null), -42
(42 is not a known signal number) gives (null, "SIG42"), and -5 satisfies
the exactly-one law. -/
theorem set_exit_status_spec_witness :
    set_exit_status { session_id := "s" } (some 7) =
      { session_id := "s", exit_code := some 7, exit_signal := none } ∧
    set_exit_status { session_id := "s" } (some (-42)) =
      { session_id := "s", exit_code := none,
        exit_signal := some "SIG42" } ∧
    (set_exit_status { session_id := "s" } (some (-5))).exit_code.isSome =
      !(set_exit_status { session_id := "s" } (some (-5))).exit_signal.isSome := by
  refine ⟨?_, ?_, set_exit_status_spec.2.2.2.2.1 { session_id := "s" } (-5)⟩
  · exact (set_exit_status_spec.1 { session_id := "s" } 7 (by decide)).trans
      (by decide)
  · exact (set_exit_status_spec.2.2.2.1 { session_id := "s" } 42 (by decide)
      (by decide)).trans (by decide)

/-- Is a byte a UTF-8 continuation byte (`10xxxxxx`, i.e.
`(b & 0xC0) == 0x80`)? -/
def isContinuationByte (b : Nat) : Bool :=
  b &&& 0xC0 == 0x80

/-- `TerminalManager._trim_front_at_char_boundary`: drop the oldest excess
bytes so the buffer is at most `limit` bytes, then drop any orphaned UTF-8
continuation bytes at the new start. -/
def trim_front_at_char_boundary (buf : List Nat) (limit : Nat) : List Nat :=
  if buf.length ≤ limit then buf
  else ((buf.drop (buf.length - limit)).dropWhile isContinuationByte)

/-- One iteration of the read loop in
`TerminalManager._read_terminal_output`: extend the buffer with the chunk;
when a byte limit is set and exceeded, mark `truncated` and trim the
front. -/
def feed_chunk (buf : List Nat) (truncated : Bool) (limit : Option Nat)
    (chunk : List Nat) : List Nat × Bool :=
  let buf := buf ++ chunk
  match limit with
  | some l =>
    if buf.length > l then (trim_front_at_char_boundary buf l, true)
    else (buf, truncated)
  | none => (buf, truncated)

/-- Feed a sequence of chunks through the read loop. -/
def feed_chunks (limit : Option Nat) (st : List Nat × Bool)
    (chunks : List (List Nat)) : List Nat × Bool :=
  chunks.foldl (fun acc chunk => feed_chunk acc.1 acc.2 limit chunk) st

theorem head_dropWhile_false {α : Type} (p : α → Bool) (l : List α) :
    ∀ b, (l.dropWhile p).head? = some b → p b = false := by
  induction l with
  | nil => intro b hb; simp [List.dropWhile] at hb
  | cons a as ih =>
    intro b hb
    by_cases ha : p a
    · rw [List.dropWhile_cons_of_pos ha] at hb
      exact ih b hb
    · rw [List.dropWhile_cons_of_neg ha] at hb
      simp at hb
      rw [← hb]
      simpa using ha

/-- C5: tail retention in the terminal output buffer: whenever a chunk makes
the buffer exceed the byte limit, the oldest excess bytes are dropped, then
any UTF-8 continuation bytes at the new start are dropped, and the truncated
flag is set (and stays set).  In particular two sequential chunks of N bytes
with limit N leave exactly the second chunk's bytes (modulo a leading
partial character, dropped entirely) and truncated=true, and the retained
buffer never starts with a dangling continuation byte. -/
theorem terminal_tail_retention (N : Nat) (hN : 0 < N)
    (c1 c2 : List Nat) (h1 : c1.length = N) (h2 : c2.length = N) :
    (feed_chunks (some N) ([], false) [c1, c2]).1 =
      c2.dropWhile isContinuationByte ∧
    (feed_chunks (some N) ([], false) [c1, c2]).2 = true ∧
    ((∀ b, c2.head? = some b → isContinuationByte b = false) →
      (feed_chunks (some N) ([], false) [c1, c2]).1 = c2) ∧
    (∀ b, (feed_chunks (some N) ([], false) [c1, c2]).1.head? = some b →
      isContinuationByte b = false) ∧
    (∀ (buf chunk : List Nat) (l : Nat) (tr : Bool),
      (buf ++ chunk).length > l →
      feed_chunk buf tr (some l) chunk =
        (((buf ++ chunk).drop ((buf ++ chunk).length - l)).dropWhile
          isContinuationByte, true)) ∧
    (∀ (buf chunk : List Nat) (limit : Option Nat),
      (feed_chunk buf true limit chunk).2 = true) := by
  have hmain : feed_chunks (some N) ([], false) [c1, c2] =
      (c2.dropWhile isContinuationByte, true) := by
    unfold feed_chunks
    simp only [List.foldl_cons, List.foldl_nil]
    have hs1 : feed_chunk [] false (some N) c1 = (c1, false) := by
      unfold feed_chunk
      simp [h1]
    rw [hs1]
    unfold feed_chunk
    dsimp only
    have hlen : (c1 ++ c2).length = N + N := by simp [h1, h2]
    rw [if_pos (by omega)]
    unfold trim_front_at_char_boundary
    rw [if_neg (by omega)]
    have hdrop : (c1 ++ c2).drop ((c1 ++ c2).length - N) = c2 := by
      rw [hlen]
      have hNN : N + N - N = N := by omega
      rw [hNN, ← h1, List.drop_left]
    rw [hdrop]
  refine ⟨by rw [hmain], by rw [hmain], ?_, ?_, ?_, ?_⟩
  · intro hh
    rw [hmain]
    cases c2 with
    | nil => rfl
    | cons b bs =>
      have hb : isContinuationByte b = false := hh b rfl
      have hb' : ¬ (isContinuationByte b = true) := by simp [hb]
      rw [List.dropWhile_cons_of_neg hb']
  · intro b hb
    rw [hmain] at hb
    exact head_dropWhile_false _ _ b hb
  · intro buf chunk l tr hgt
    unfold feed_chunk trim_front_at_char_boundary
    dsimp only
    rw [if_pos hgt, if_neg (by omega)]
  · intro buf chunk limit
    unfold feed_chunk
    cases limit with
    | none => rfl
    | some l =>
      dsimp only
      split <;> rfl

/-- Witness for C5: limit 4, first chunk "caf" plus the lead byte of a
two-byte character, second chunk its continuation byte plus "!!!" — the
partial character is dropped entirely and the buffer decodes cleanly; with a
clean cut the second chunk is retained exactly; truncated is set. -/
theorem terminal_tail_retention_witness :
    (feed_chunks (some 4) ([], false)
      [[0x63, 0x61, 0x66, 0xC3], [0xA9, 0x21, 0x21, 0x21]]).1 =
      [0x21, 0x21, 0x21] ∧
    (feed_chunks (some 4) ([], false)
      [[0x63, 0x61, 0x66, 0xC3], [0xA9, 0x21, 0x21, 0x21]]).2 = true ∧
    (feed_chunks (some 4) ([], false)
      [[0x65, 0x66, 0x67, 0x68], [0x69, 0x6A, 0x6B, 0x6C]]).1 =
      [0x69, 0x6A, 0x6B, 0x6C] := by
  have h := terminal_tail_retention 4 (by decide)
    [0x63, 0x61, 0x66, 0xC3] [0xA9, 0x21, 0x21, 0x21] (by decide) (by decide)
  have h' := terminal_tail_retention 4 (by decide)
    [0x65, 0x66, 0x67, 0x68] [0x69, 0x6A, 0x6B, 0x6C] (by decide) (by decide)
  refine ⟨h.1.trans (by decide), h.2.1, h'.2.2.1 ?_⟩
  intro b hb
  have hb' : b = 0x69 := by simpa using hb.symm
  subst hb'
  decide

/-- `MAX_TERMINALS` from `terminal_manager.py`. -/
def MAX_TERMINALS : Nat := 50

/-- `DEFAULT_OUTPUT_BYTE_LIMIT` from `terminal_manager.py`. -/
def DEFAULT_OUTPUT_BYTE_LIMIT : Nat := 10 * 1024 * 1024

/-- `_DENIED_ENV_VARS` from `terminal_manager.py`. -/
def _DENIED_ENV_VARS : List String :=
  ["LD_PRELOAD", "LD_LIBRARY_PATH", "LD_AUDIT",
   "DYLD_INSERT_LIBRARIES", "DYLD_LIBRARY_PATH", "DYLD_FRAMEWORK_PATH",
   "PYTHONPATH", "PYTHONSTARTUP", "PYTHONHOME",
   "NODE_OPTIONS",
   "BASH_ENV", "ENV"]

/-- An `EnvVariable` (acp.schema). -/
structure EnvVariable where
  name : String
  value : String
deriving DecidableEq

/-- The `acp.RequestError` variants raised by `create_terminal`. -/
inductive RequestErr : Type where
  | invalidRequest (field msg : String)
  | invalidParams (field msg : String)
  | internalError (field msg : String)
deriving DecidableEq

/-- Outcome of `asyncio.create_subprocess_exec` (an OS oracle). -/
inductive SpawnResult : Type where
  | ok
  | fileNotFound
  | permissionDenied
  | osError (msg : String)
deriving DecidableEq

/-- Is the result an `InvalidParams` error? -/
def isInvalidParamsB {α : Type} : Except RequestErr α → Bool
  | Except.error (RequestErr.invalidParams _ _) => true
  | _ => false

/-- The env-building loop of `create_terminal`: reject (case-insensitively)
any denied variable name, otherwise overlay the variable onto the inherited
environment. -/
def buildEnvDict : List EnvVariable → List (String × String) →
    Except RequestErr (List (String × String))
  | [], acc => Except.ok acc
  | e :: rest, acc =>
    if pyUpper e.name ∈ _DENIED_ENV_VARS ∨ e.name ∈ _DENIED_ENV_VARS then
      Except.error (RequestErr.invalidParams "env"
        ("setting " ++ e.name ++ " is not allowed"))
    else buildEnvDict rest (dictSet acc e.name e.value)

/-- `TerminalManager.create_terminal`'s validation and state-update pipeline.
The filesystem (`os.path.isdir`), shell tokenization (`shlex.split`), the
subprocess spawn and the fresh uuid are oracle parameters; `os.path.isabs`
on POSIX is a leading-slash test and is modelled directly. -/
def create_terminal (terminals : List (String × TerminalInfo))
    (command : String) (session_id : String) (args : Option (List String))
    (cwd : Option String) (env : Option (List EnvVariable))
    (output_byte_limit : Option Nat) (isDir : String → Bool)
    (shlexSplit : Except String (List String)) (spawn : SpawnResult)
    (new_terminal_id : String) (baseEnv : List (String × String)) :
    Except RequestErr ((List (String × TerminalInfo)) × String) :=
  if terminals.length ≥ MAX_TERMINALS then
    Except.error (RequestErr.invalidRequest "terminal_id"
      "terminal limit reached")
  else if command = "" ∨ command.trim = "" then
    Except.error (RequestErr.invalidParams "command" "command cannot be empty")
  else
    let cwdErr : Option RequestErr :=
      match cwd with
      | none => none
      | some c =>
        if ¬ startsWithL ['/'] c.toList then
          some (RequestErr.invalidParams "cwd" "cwd must be an absolute path")
        else if ¬ isDir c then
          some (RequestErr.invalidParams "cwd" "cwd directory does not exist")
        else none
    match cwdErr with
    | some err => Except.error err
    | none =>
      let envResult : Except RequestErr (Option (List (String × String))) :=
        match env with
        | some evs =>
          if ¬ evs.isEmpty then (buildEnvDict evs baseEnv).map some
          else Except.ok none
        | none => Except.ok none
      match envResult with
      | Except.error err => Except.error err
      | Except.ok _env_dict =>
        let effective_byte_limit :=
          output_byte_limit.getD DEFAULT_OUTPUT_BYTE_LIMIT
        let parsed : Except RequestErr (List String) :=
          match shlexSplit with
          | Except.ok toks => Except.ok toks
          | Except.error e =>
            Except.error (RequestErr.invalidParams "command"
              ("could not parse command: " ++ e))
        let cmdArgsE : Except RequestErr (List String) :=
          match args with
          | some as => if ¬ as.isEmpty then Except.ok (command :: as) else parsed
          | none => parsed
        match cmdArgsE with
        | Except.error err => Except.error err
        | Except.ok cmd_args =>
          if cmd_args = [] then
            Except.error (RequestErr.invalidParams "command"
              "command cannot be empty")
          else
            match spawn with
            | SpawnResult.fileNotFound =>
              Except.error (RequestErr.invalidParams "command"
                ("command not found: " ++ command))
            | SpawnResult.permissionDenied =>
              Except.error (RequestErr.invalidParams "command"
                ("permission denied: " ++ command))
            | SpawnResult.osError msg =>
              Except.error (RequestErr.internalError "command" msg)
            | SpawnResult.ok =>
              Except.ok
                (dictSet terminals new_terminal_id
                  { session_id := session_id,
                    output_byte_limit := some effective_byte_limit },
                 new_terminal_id)

/-- C7 counterexample: at the terminal cap, a create_terminal call whose env
contains a denied name fails with the capacity error (`InvalidRequest`), not
`InvalidParams` — the deny-list check is never reached. -/
theorem create_terminal_denied_env_at_cap_cex :
    create_terminal
      ((List.range 50).map (fun i =>
        ("t" ++ toString i, ({ session_id := "s" } : TerminalInfo))))
      "echo hi" "s1" none none
      (some [{ name := "LD_PRELOAD", value := "x" }]) none (fun _ => true)
      (Except.ok ["echo", "hi"]) SpawnResult.ok "tid" [] =
      Except.error (RequestErr.invalidRequest "terminal_id"
        "terminal limit reached") ∧
    isInvalidParamsB (create_terminal
      ((List.range 50).map (fun i =>
        ("t" ++ toString i, ({ session_id := "s" } : TerminalInfo))))
      "echo hi" "s1" none none
      (some [{ name := "LD_PRELOAD", value := "x" }]) none (fun _ => true)
      (Except.ok ["echo", "hi"]) SpawnResult.ok "tid" []) = false := by
  exact ⟨rfl, rfl⟩

theorem buildEnvDict_denied (evs : List EnvVariable) (e : EnvVariable)
    (he : e ∈ evs)
    (hd : pyUpper e.name ∈ _DENIED_ENV_VARS ∨ e.name ∈ _DENIED_ENV_VARS) :
    ∀ acc, ∃ msg, buildEnvDict evs acc =
      Except.error (RequestErr.invalidParams "env" msg) := by
  induction evs with
  | nil => cases he
  | cons v rest ih =>
    intro acc
    by_cases hv : pyUpper v.name ∈ _DENIED_ENV_VARS ∨ v.name ∈ _DENIED_ENV_VARS
    · exact ⟨"setting " ++ v.name ++ " is not allowed",
        by simp [buildEnvDict, hv]⟩
    · have he' : e ∈ rest := by
        rcases List.mem_cons.mp he with rfl | h
        · exact absurd hd hv
        · exact h
      rcases ih he' (dictSet acc v.name v.value) with ⟨msg, hmsg⟩
      exact ⟨msg, by simp [buildEnvDict, hv, hmsg]⟩

/-- C7 amended: a create_terminal call whose environment list contains a
variable whose name matches a deny-list name in any letter case always fails
— no terminal is created — and, provided the terminal cap has not already
been reached, the failure is `InvalidParams`.  (At the cap the call fails
with the capacity `InvalidRequest` error instead, per the
counterexample.) -/
theorem create_terminal_denied_env
    (terminals : List (String × TerminalInfo)) (command session_id : String)
    (args : Option (List String)) (cwd : Option String)
    (envList : List EnvVariable) (output_byte_limit : Option Nat)
    (isDir : String → Bool) (shlexSplit : Except String (List String))
    (spawn : SpawnResult) (new_terminal_id : String)
    (baseEnv : List (String × String)) (e : EnvVariable) (he : e ∈ envList)
    (hd : pyUpper e.name ∈ _DENIED_ENV_VARS) :
    (∃ err, create_terminal terminals command session_id args cwd
        (some envList) output_byte_limit isDir shlexSplit spawn
        new_terminal_id baseEnv = Except.error err) ∧
    (terminals.length < MAX_TERMINALS →
      isInvalidParamsB (create_terminal terminals command session_id args cwd
        (some envList) output_byte_limit isDir shlexSplit spawn
        new_terminal_id baseEnv) = true) := by
  have hne : ¬ envList.isEmpty := by
    cases envList with
    | nil => cases he
    | cons a as => simp
  rcases buildEnvDict_denied envList e he (Or.inl hd) baseEnv with ⟨msg, hmsg⟩
  by_cases h50 : terminals.length ≥ MAX_TERMINALS
  · constructor
    · exact ⟨RequestErr.invalidRequest "terminal_id" "terminal limit reached",
        by simp [create_terminal, h50]⟩
    · intro hlt; omega
  · by_cases hcmd : command = "" ∨ command.trim = ""
    · constructor
      · exact ⟨RequestErr.invalidParams "command" "command cannot be empty",
          by simp [create_terminal, h50, hcmd]⟩
      · intro hlt
        simp [isInvalidParamsB, create_terminal, h50, hcmd]
    · have hne' : envList ≠ [] := by
        intro hEq
        rw [hEq] at he
        cases he
      cases cwd with
      | none =>
        constructor
        · exact ⟨RequestErr.invalidParams "env" msg,
            by simp [create_terminal, h50, hcmd, hne', hmsg, Except.map]⟩
        · intro hlt
          simp [isInvalidParamsB, create_terminal, h50, hcmd, hne', hmsg,
            Except.map]
      | some c =>
        by_cases habs : startsWithL ['/'] c.toList
        · have habs' : startsWithL ['/'] c.data = true := habs
          by_cases hdir : isDir c
          · constructor
            · exact ⟨RequestErr.invalidParams "env" msg,
                by simp [create_terminal, h50, hcmd, habs', hdir, hne', hmsg,
                  Except.map]⟩
            · intro hlt
              simp [isInvalidParamsB, create_terminal, h50, hcmd, habs', hdir,
                hne', hmsg, Except.map]
          · have hdir' : isDir c = false := by simpa using hdir
            constructor
            · exact ⟨RequestErr.invalidParams "cwd"
                "cwd directory does not exist",
                by simp [create_terminal, h50, hcmd, habs', hdir']⟩
            · intro hlt
              simp [isInvalidParamsB, create_terminal, h50, hcmd, habs', hdir']
        · have habs' : startsWithL ['/'] c.data = false := by simpa using habs
          constructor
          · exact ⟨RequestErr.invalidParams "cwd"
              "cwd must be an absolute path",
              by simp [create_terminal, h50, hcmd, habs']⟩
          · intro hlt
            simp [isInvalidParamsB, create_terminal, h50, hcmd, habs']

/-- Witness for C7 amended: under the cap, a lower-case "ld_preload" env
variable makes create_terminal fail with `InvalidParams`
(case-insensitivity), and no terminal is created. -/
theorem create_terminal_denied_env_witness :
    isInvalidParamsB (create_terminal [] "echo hi" "s1" none none
      (some [{ name := "ld_preload", value := "x" }]) none (fun _ => true)
      (Except.ok ["echo", "hi"]) SpawnResult.ok "tid" []) = true := by
  have h := create_terminal_denied_env [] "echo hi" "s1" none none
    [{ name := "ld_preload", value := "x" }] none (fun _ => true)
    (Except.ok ["echo", "hi"]) SpawnResult.ok "tid" []
    { name := "ld_preload", value := "x" } (by decide) (by decide)
  exact h.2 (by decide)
